import Mathlib

/-!
Verification development for the MacVideoServer HTTP file server
(src/server.cpp). The C++ source is shallowly embedded: strings are
lists of characters, unsigned 64-bit / 32-bit machine arithmetic is
Nat with explicit clamping or reduction modulo 2^64 / 2^32 where the
source can overflow, and the handler's interaction with the filesystem
is made explicit through a small trace record.
-/

/-- Models the C locale predicate isdigit: true on the ASCII codes 48..57. -/
def isDigitC (c : Char) : Bool := 48 ≤ c.toNat && c.toNat ≤ 57

/-- Models the C locale predicate isspace: space (32) and the control
characters 9..13 (tab, newline, vertical tab, form feed, carriage return). -/
def isSpaceC (c : Char) : Bool := c.toNat = 32 || (9 ≤ c.toNat && c.toNat ≤ 13)

/-- Numeric value of one ASCII digit character. -/
def digitVal (c : Char) : Nat := c.toNat - 48

/-- Base-10 value of a list of digit characters (most significant first). -/
def digitsVal (l : List Char) : Nat := l.foldl (fun acc c => acc * 10 + digitVal c) 0

/-- ULLONG_MAX, the saturation bound of strtoull. -/
def UMAX : Nat := 2 ^ 64 - 1

/-- Value of the longest leading digit run of a character list, saturated at
ULLONG_MAX as strtoull does on overflow. -/
def strtoullCore (l : List Char) : Nat :=
  min (digitsVal (List.takeWhile isDigitC l)) UMAX

/-- Sign-and-digits part of strtoull, applied after whitespace skipping:
one optional sign, then the longest leading digit run; a minus sign negates
modulo 2^64 (the C unsigned negation). -/
def strtoullAux (t : List Char) : Nat :=
  if t.head? = some '+' then strtoullCore (t.drop 1)
  else if t.head? = some '-' then (2 ^ 64 - strtoullCore (t.drop 1)) % 2 ^ 64
  else strtoullCore t

/-- Models strtoull(s, nullptr, 10) as used at server.cpp lines 127, 145, 148
and 156: skip leading whitespace, accept one optional sign, convert the
longest leading digit run (0 when there is none), saturate at ULLONG_MAX, and
negate modulo 2^64 under a minus sign. -/
def strtoull (s : List Char) : Nat := strtoullAux (List.dropWhile isSpaceC s)

/-- Sign-and-digits part of atoi, applied after whitespace skipping. -/
def atoiAux (t : List Char) : Int :=
  if t.head? = some '+' then (digitsVal (List.takeWhile isDigitC (t.drop 1)) : Int)
  else if t.head? = some '-' then -(digitsVal (List.takeWhile isDigitC (t.drop 1)) : Int)
  else (digitsVal (List.takeWhile isDigitC t) : Int)

/-- Models atoi(s) as used at server.cpp line 130: skip leading whitespace,
accept one optional sign, convert the longest leading digit run (0 when there
is none). Overflow of the int result is undefined behaviour in C and is not
modelled. -/
def atoi (s : List Char) : Int := atoiAux (List.dropWhile isSpaceC s)

/-- Models the cast (unsigned)atoi(fps_arg) at server.cpp line 130:
conversion of the int value to unsigned is reduction modulo 2^32. -/
def atoiU (s : List Char) : Nat := ((atoi s) % (2 ^ 32 : Int)).toNat

/-- Leading-match test: the first list occurs verbatim at the head of the
second list. -/
def leadMatch : List Char → List Char → Bool
  | [], _ => true
  | _ :: _, [] => false
  | a :: as, b :: bs => decide (a = b) && leadMatch as bs

/-- Models strstr(hay, needle) != NULL: the needle occurs as a contiguous
substring of the haystack. -/
def containsSub (hay needle : List Char) : Bool :=
  match hay with
  | [] => leadMatch needle []
  | x :: t => leadMatch needle (x :: t) || containsSub t needle

/-- Models contains_dotdot at server.cpp lines 88-93: strstr(p, "..") != NULL. -/
def contains_dotdot (p : List Char) : Bool := containsSub p ("..".data)

/-- Models strchr(r, c): splits the list at the first occurrence of c,
returning the parts before and after it, or none when c does not occur. -/
def splitAtChar (c : Char) : List Char → Option (List Char × List Char)
  | [] => none
  | x :: xs =>
    if x = c then some ([], xs)
    else
      match splitAtChar c xs with
      | none => none
      | some (p, q) => some (x :: p, q)

/-- Outcome of the Range header parsing block of handle_request:
either the request is refused (fclose and MHD_NO, lines 160-163), or a
start offset, an end offset and the is_partial flag are produced. -/
inductive RangeOutcome where
  | refuse : RangeOutcome
  | range : Nat → Nat → Bool → RangeOutcome
deriving DecidableEq

/-- Start and end values used when no (recognized) Range header is present:
start = 0 and end = file_size > 0 ? file_size - 1 : 0 (lines 135-137). -/
def fullRange (file_size : Nat) : RangeOutcome :=
  RangeOutcome.range 0 (if file_size > 0 then file_size - 1 else 0) false

/-- Models lines 140-165 of handle_request, operating on r = range_hdr + 6
(the text after "bytes="). strchr finds the first dash; the text before it,
when nonempty, is parsed with strtoull for start, otherwise the suffix form
computes start from the text after the dash; the text after the dash, when
nonempty, is re-parsed with strtoull for end, otherwise end = file_size - 1
(an uint64 computation, wrapping when file_size = 0). Out-of-order or
out-of-file windows are refused. -/
def parseAfterBytes (r : List Char) (file_size : Nat) : RangeOutcome :=
  match splitAtChar '-' r with
  | none => fullRange file_size
  | some (pre, post) =>
    let s :=
      if pre ≠ [] then strtoull r
      else
        let suffix := strtoull post
        if suffix ≥ file_size then 0 else file_size - suffix
    let e :=
      if post ≠ [] then strtoull post
      else (file_size + 2 ^ 64 - 1) % 2 ^ 64
    if s > e ∨ s ≥ file_size then RangeOutcome.refuse
    else RangeOutcome.range s e true

/-- Models lines 139-166: the header is inspected only when it starts with
the exact, case-sensitive unit prefix (strncmp(range_hdr, "bytes=", 6) == 0);
otherwise the defaults of lines 135-137 stand. -/
def parseRangeHdr (hdr : List Char) (file_size : Nat) : RangeOutcome :=
  if List.take 6 hdr = ("bytes=".data) then
    parseAfterBytes (List.drop 6 hdr) file_size
  else fullRange file_size

/-- Models lines 133-166 including the absent-header case
(MHD_lookup_connection_value returning NULL). -/
def parseRange (hdr : Option (List Char)) (file_size : Nat) : RangeOutcome :=
  match hdr with
  | none => fullRange file_size
  | some h => parseRangeHdr h file_size

/-- Models the MIME selection chain at server.cpp lines 190-212: an
else-if chain of strstr substring tests on the URL, in source order,
defaulting to application/octet-stream. -/
def mime_type (url : List Char) : String :=
  if containsSub url (".mp4".data) then ("video/mp4")
  else if containsSub url (".m3u8".data) then ("application/x-mpegURL")
  else if containsSub url (".ts".data) then ("video/mp2t")
  else if containsSub url (".html".data) then ("text/html; charset=utf-8")
  else if containsSub url (".js".data) then ("application/javascript")
  else if containsSub url (".css".data) then ("text/css")
  else if containsSub url (".jpg".data) || containsSub url (".jpeg".data) then ("image/jpeg")
  else if containsSub url (".png".data) then ("image/png")
  else if containsSub url (".gif".data) then ("image/gif")
  else if containsSub url (".vtt".data) then ("text/vtt; charset=utf-8")
  else if containsSub url (".srt".data) then ("application/x-subrip")
  else ("application/octet-stream")

/-- Request metadata reaching handle_request: the method string, the URL,
the two optional query parameter strings as returned by
MHD_lookup_connection_value (none models a NULL return), and the optional
Range header value. -/
structure Request where
  method : List Char
  url : List Char
  bitrateParam : Option (List Char)
  fpsParam : Option (List Char)
  rangeHdr : Option (List Char)
deriving DecidableEq

/-- Filesystem view of the one target path MOVIE_DIR + url of a request:
whether stat succeeds with S_ISREG (line 115), the reported st_size, and
whether fopen succeeds (line 120). -/
structure FsFile where
  statOk : Bool
  size : Nat
  openOk : Bool
deriving DecidableEq

/-- Trace of the externally visible per-request effects of handle_request:
whether stat was called, whether fopen was called, whether the handler
itself closed the file (the refuse-after-open path, line 161), and whether
a FileState allocation is left alive (handed to the response on success). -/
structure Trace where
  statCalled : Bool
  openCalled : Bool
  fileClosed : Bool
  statePersists : Bool
deriving DecidableEq

/-- Result of handle_request: MHD_NO (refuse, no response queued) or a
queued response with its status code, Content-Length, optional
Content-Range triple (start, end, size), Content-Type, and the bitrate and
fps values stored in the FileState. -/
inductive HandlerResult where
  | refuse : HandlerResult
  | respond : Nat → Nat → Option (Nat × Nat × Nat) → String → Nat → Nat → HandlerResult
deriving DecidableEq

/-- Status code of a result (0 for a refused request, which has none). -/
def HandlerResult.statusOf : HandlerResult → Nat
  | HandlerResult.refuse => 0
  | HandlerResult.respond st _ _ _ _ _ => st

/-- Content-Length of a result (0 for a refused request, which has none). -/
def HandlerResult.clOf : HandlerResult → Nat
  | HandlerResult.refuse => 0
  | HandlerResult.respond _ cl _ _ _ _ => cl

/-- Content-Range triple of a result, when present. -/
def HandlerResult.crOf : HandlerResult → Option (Nat × Nat × Nat)
  | HandlerResult.refuse => none
  | HandlerResult.respond _ _ cr _ _ _ => cr

/-- Content-Type of a result (empty for a refused request). -/
def HandlerResult.mimeOf : HandlerResult → String
  | HandlerResult.refuse => ("")
  | HandlerResult.respond _ _ _ m _ _ => m

/-- Bitrate stored in the FileState of a successful result. -/
def HandlerResult.bitrateOf : HandlerResult → Nat
  | HandlerResult.refuse => 0
  | HandlerResult.respond _ _ _ _ br _ => br

/-- Fps stored in the FileState of a successful result. -/
def HandlerResult.fpsOf : HandlerResult → Nat
  | HandlerResult.refuse => 0
  | HandlerResult.respond _ _ _ _ _ fv => fv

/-- Models handle_request (server.cpp lines 95-232). The method check,
the traversal guard, stat, fopen, the query parameter defaults, the Range
block and the response assembly follow the source in order; the trace
records which filesystem steps ran and whether per-request state outlives
the call. content_length = end - start + 1 is an uint64 computation,
reduced modulo 2^64. MHD_create_response_from_callback is assumed to
succeed (its failure path frees everything and refuses, line 182-186). -/
def handle_request (req : Request) (fs : FsFile) : HandlerResult × Trace :=
  if req.method ≠ ("GET".data) then (HandlerResult.refuse, ⟨false, false, false, false⟩)
  else if contains_dotdot req.url = true then (HandlerResult.refuse, ⟨false, false, false, false⟩)
  else if fs.statOk = false then (HandlerResult.refuse, ⟨true, false, false, false⟩)
  else if fs.openOk = false then (HandlerResult.refuse, ⟨true, true, false, false⟩)
  else
    let bitrate : Nat :=
      match req.bitrateParam with
      | some s => strtoull s
      | none => 8000000
    let fps : Nat :=
      match req.fpsParam with
      | some s => atoiU s
      | none => 60
    match parseRange req.rangeHdr fs.size with
    | RangeOutcome.refuse => (HandlerResult.refuse, ⟨true, true, true, false⟩)
    | RangeOutcome.range s e isPart =>
      let cl : Nat := (e - s + 1) % 2 ^ 64
      (HandlerResult.respond (if isPart then 206 else 200) cl
        (if isPart then some (s, e, fs.size) else none)
        (mime_type req.url) bitrate fps,
       ⟨true, true, false, true⟩)

/-- Result of one pull from the response body reader. -/
inductive ReadResult where
  | END : ReadResult
  | bytes : Nat → ReadResult
deriving DecidableEq

/-- Models file_reader (server.cpp lines 37-74) on a regular file of
fileSize bytes: fseeko to offset_base + pos succeeds, fread returns
min(max, fileSize - (offset_base + pos)) bytes, and a zero-byte read
(EOF, or max = 0) yields MHD_CONTENT_READER_END_OF_STREAM. -/
def file_reader (offset_base fileSize pos maxb : Nat) : ReadResult :=
  let r := min maxb (fileSize - (offset_base + pos))
  if r = 0 then ReadResult.END else ReadResult.bytes r

/-- Models the bytes_per_frame computation at server.cpp lines 60-61 over
the rationals: estimated_bitrate / target_fps / 8. -/
def bytes_per_frame (bitrate fps : ℚ) : ℚ := bitrate / fps / 8

/-- Models the guarded frames_per_sec computation at server.cpp lines
62-66 over the rationals: frames_per_sec starts at 0 and is assigned
(b / elapsed) / bytes_per_frame only when bytes_per_frame > 0. -/
def frames_per_sec (b elapsed bitrate fps : ℚ) : ℚ :=
  if bytes_per_frame bitrate fps > 0 then (b / elapsed) / bytes_per_frame bitrate fps
  else 0

/-! ## Helper lemmas about the character-level parsing functions -/

/-- A digit character is not whitespace. -/
theorem isDigitC_not_space {c : Char} (h : isDigitC c = true) : isSpaceC c = false := by
  simp [isDigitC, Bool.and_eq_true, decide_eq_true_eq] at h
  simp [isSpaceC]
  omega

/-- A digit character is not the plus sign. -/
theorem isDigitC_ne_plus {c : Char} (h : isDigitC c = true) : c ≠ '+' := by
  intro heq
  subst heq
  simp [isDigitC] at h

/-- A digit character is not the dash. -/
theorem isDigitC_ne_dash {c : Char} (h : isDigitC c = true) : c ≠ '-' := by
  intro heq
  subst heq
  simp [isDigitC] at h

/-- Bool test that a character list does not start with a digit, so that a
numeric conversion starting there yields no digits. -/
def noLeadB (l : List Char) : Bool :=
  match l with
  | [] => true
  | c :: _ => !isDigitC c

/-- takeWhile isDigitC consumes exactly an all-digit block when what
follows does not start with a digit. -/
theorem takeWhile_digits_append (d rest : List Char)
    (hd : ∀ c ∈ d, isDigitC c = true) (hr : noLeadB rest = true) :
    List.takeWhile isDigitC (d ++ rest) = d := by
  induction d with
  | nil =>
    cases rest with
    | nil => rfl
    | cons c t =>
      simp [noLeadB] at hr
      simp [List.takeWhile, hr]
  | cons c d' ih =>
    have hc : isDigitC c = true := hd c (by simp)
    simp [List.takeWhile, hc]
    exact ih (fun x hx => hd x (by simp [hx]))

/-- takeWhile isDigitC of a list with no digit head is empty. -/
theorem takeWhile_noLead (l : List Char) (h : noLeadB l = true) :
    List.takeWhile isDigitC l = [] := by
  cases l with
  | nil => rfl
  | cons c t =>
    simp [noLeadB] at h
    simp [List.takeWhile, h]

/-- strtoull of an all-digit block followed by a non-digit remainder is the
value of the block, given that the value does not overflow uint64. -/
theorem strtoull_digits (d rest : List Char)
    (hd : ∀ c ∈ d, isDigitC c = true) (hne : d ≠ [])
    (hr : noLeadB rest = true) (hv : digitsVal d < 2 ^ 64) :
    strtoull (d ++ rest) = digitsVal d := by
  cases d with
  | nil => exact absurd rfl hne
  | cons c d' =>
    have hc : isDigitC c = true := hd c (by simp)
    have hsp : isSpaceC c = false := isDigitC_not_space hc
    have htake : List.takeWhile isDigitC ((c :: d') ++ rest) = c :: d' :=
      takeWhile_digits_append (c :: d') rest hd hr
    have hdw : List.dropWhile isSpaceC ((c :: d') ++ rest) = (c :: d') ++ rest := by
      rw [List.cons_append]
      simp only [List.dropWhile, hsp]
    rw [strtoull, hdw]
    have hplus : ¬((c :: d') ++ rest).head? = some '+' := by
      rw [List.cons_append]
      simp [isDigitC_ne_plus hc]
    have hdash : ¬((c :: d') ++ rest).head? = some '-' := by
      rw [List.cons_append]
      simp [isDigitC_ne_dash hc]
    rw [strtoullAux, if_neg hplus, if_neg hdash, strtoullCore, htake]
    have hle : digitsVal (c :: d') ≤ UMAX := by
      unfold UMAX
      omega
    exact Nat.min_eq_left hle

/-- Every element of dropWhile p l is an element of l. -/
theorem mem_of_mem_dropWhile (p : Char → Bool) (l : List Char) (c : Char)
    (h : c ∈ List.dropWhile p l) : c ∈ l := by
  induction l with
  | nil => simp [List.dropWhile] at h
  | cons a t ih =>
    cases hpa : p a with
    | true =>
      simp only [List.dropWhile, hpa] at h
      exact List.mem_cons_of_mem a (ih h)
    | false =>
      simp only [List.dropWhile, hpa] at h
      exact h

/-- strtoull of a list containing no digit at all is 0. -/
theorem strtoull_nondigits (s : List Char) (h : ∀ c ∈ s, isDigitC c = false) :
    strtoull s = 0 := by
  have hall : ∀ c ∈ List.dropWhile isSpaceC s, isDigitC c = false :=
    fun c hc => h c (mem_of_mem_dropWhile isSpaceC s c hc)
  rw [strtoull]
  cases ht : List.dropWhile isSpaceC s with
  | nil => simp [strtoullAux, strtoullCore, digitsVal, UMAX]
  | cons c tail =>
    rw [ht] at hall
    have htail : ∀ x ∈ tail, isDigitC x = false := fun x hx => hall x (by simp [hx])
    have htail0 : List.takeWhile isDigitC tail = [] := by
      cases tail with
      | nil => rfl
      | cons b tb => simp [List.takeWhile, htail b (by simp)]
    have hhead : List.takeWhile isDigitC (c :: tail) = [] := by
      simp [List.takeWhile, hall c (by simp)]
    by_cases hcp : c = '+'
    · simp [strtoullAux, hcp, strtoullCore, htail0, digitsVal, UMAX]
    · by_cases hcm : c = '-'
      · simp [strtoullAux, hcp, hcm, strtoullCore, htail0, digitsVal, UMAX]
      · simp [strtoullAux, hcp, hcm, strtoullCore, hhead, digitsVal, UMAX]

/-- atoiU of a list containing no digit at all is 0. -/
theorem atoiU_nondigits (s : List Char) (h : ∀ c ∈ s, isDigitC c = false) :
    atoiU s = 0 := by
  have hall : ∀ c ∈ List.dropWhile isSpaceC s, isDigitC c = false :=
    fun c hc => h c (mem_of_mem_dropWhile isSpaceC s c hc)
  rw [atoiU, atoi]
  cases ht : List.dropWhile isSpaceC s with
  | nil => simp [atoiAux, digitsVal]
  | cons c tail =>
    rw [ht] at hall
    have htail : ∀ x ∈ tail, isDigitC x = false := fun x hx => hall x (by simp [hx])
    have htail0 : List.takeWhile isDigitC tail = [] := by
      cases tail with
      | nil => rfl
      | cons b tb => simp [List.takeWhile, htail b (by simp)]
    have hhead : List.takeWhile isDigitC (c :: tail) = [] := by
      simp [List.takeWhile, hall c (by simp)]
    by_cases hcp : c = '+'
    · simp [atoiAux, hcp, htail0, digitsVal]
    · by_cases hcm : c = '-'
      · simp [atoiAux, hcp, hcm, htail0, digitsVal]
      · simp [atoiAux, hcp, hcm, hhead, digitsVal]

/-- splitAtChar finds the first occurrence of c: splitting l ++ c :: rest
where l avoids c yields (l, rest). -/
theorem splitAtChar_append (c : Char) (l rest : List Char) (h : ∀ x ∈ l, x ≠ c) :
    splitAtChar c (l ++ c :: rest) = some (l, rest) := by
  induction l with
  | nil => simp [splitAtChar]
  | cons x l' ih =>
    have hx : x ≠ c := h x (by simp)
    have ih' := ih (fun y hy => h y (by simp [hy]))
    rw [List.cons_append, splitAtChar, if_neg hx, ih']

/-- A needle occurs at the head of itself followed by anything. -/
theorem leadMatch_self_append (n v : List Char) : leadMatch n (n ++ v) = true := by
  induction n with
  | nil => rw [leadMatch]
  | cons c t ih => rw [List.cons_append, leadMatch, ih]; simp

/-- containsSub is monotone under extending the haystack on the left. -/
theorem containsSub_append_left (u s n : List Char) (h : containsSub s n = true) :
    containsSub (u ++ s) n = true := by
  induction u with
  | nil => rw [List.nil_append]; exact h
  | cons x u' ih =>
    rw [List.cons_append, containsSub, ih]
    simp

/-- containsSub with an empty needle is always true, as strstr with an
empty needle returns the haystack. -/
theorem containsSub_nil_needle (l : List Char) : containsSub l [] = true := by
  cases l with
  | nil => rw [containsSub, leadMatch]
  | cons x t => rw [containsSub, leadMatch]; simp

/-- containsSub detects a needle sitting at the very front of the haystack. -/
theorem containsSub_self_append (n v : List Char) : containsSub (n ++ v) n = true := by
  cases n with
  | nil => rw [List.nil_append]; exact containsSub_nil_needle v
  | cons c n' =>
    rw [List.cons_append, containsSub, ← List.cons_append, leadMatch_self_append]
    simp

/-- containsSub detects a needle occurring anywhere in the haystack. -/
theorem containsSub_of_append (u n v : List Char) :
    containsSub (u ++ n ++ v) n = true := by
  rw [List.append_assoc]
  exact containsSub_append_left u (n ++ v) n (containsSub_self_append n v)

/-- A list starting with the dash character has no leading digit. -/
theorem noLeadB_dash (l : List Char) : noLeadB ('-' :: l) = true := by
  simp [noLeadB, isDigitC]

/-- The "bytes=" prefix check of line 139 succeeds on a header of the form
"bytes=" ++ r, and hands exactly r to the range grammar. -/
theorem parseRangeHdr_bytes (r : List Char) (S : Nat) :
    parseRangeHdr ((("bytes=").data) ++ r) S = parseAfterBytes r S := by
  have ht : List.take 6 ((("bytes=").data) ++ r) = (("bytes=").data) :=
    List.take_left (("bytes=").data) r
  have hd : List.drop 6 ((("bytes=").data) ++ r) = r :=
    List.drop_left (("bytes=").data) r
  rw [parseRangeHdr, ht, hd, if_pos rfl]

/-- Behaviour of the range grammar on a header body of the shape
digits-dash-digits-junk: start is the value of the first digit block, end
is the value of the second (trailing junk ignored), and the request is
refused exactly when start > end or start ≥ S. -/
theorem parseAfterBytes_two_numbers (d1 d2 junk : List Char) (S : Nat)
    (h1 : ∀ c ∈ d1, isDigitC c = true) (h1n : d1 ≠ [])
    (h2 : ∀ c ∈ d2, isDigitC c = true) (h2n : d2 ≠ [])
    (hj : noLeadB junk = true)
    (hv1 : digitsVal d1 < 2 ^ 64) (hv2 : digitsVal d2 < 2 ^ 64) :
    parseAfterBytes (d1 ++ '-' :: (d2 ++ junk)) S =
      if digitsVal d1 > digitsVal d2 ∨ digitsVal d1 ≥ S then RangeOutcome.refuse
      else RangeOutcome.range (digitsVal d1) (digitsVal d2) true := by
  have hsplit : splitAtChar '-' (d1 ++ '-' :: (d2 ++ junk)) = some (d1, d2 ++ junk) :=
    splitAtChar_append '-' d1 (d2 ++ junk) (fun x hx => isDigitC_ne_dash (h1 x hx))
  have hs : strtoull (d1 ++ '-' :: (d2 ++ junk)) = digitsVal d1 :=
    strtoull_digits d1 ('-' :: (d2 ++ junk)) h1 h1n (noLeadB_dash _) hv1
  have he : strtoull (d2 ++ junk) = digitsVal d2 :=
    strtoull_digits d2 junk h2 h2n hj hv2
  have hpost : d2 ++ junk ≠ [] := by
    cases d2 with
    | nil => exact absurd rfl h2n
    | cons a b => simp
  rw [parseAfterBytes, hsplit]
  simp only [h1n, hpost, ne_eq, not_false_iff, if_true, hs, he]

/-! ## Claim theorems -/

/-- C8: for every URL containing the substring "..", handle_request refuses
the request before any filesystem access: stat is never called, fopen is
never called, and so the file is never read. -/
theorem C8_dotdot_no_fs_access (req : Request) (fs : FsFile)
    (h : contains_dotdot req.url = true) :
    handle_request req fs = (HandlerResult.refuse, ⟨false, false, false, false⟩) := by
  rw [handle_request]
  by_cases hm : req.method = (("GET").data)
  · rw [if_neg (by simp [hm]), if_pos h]
  · rw [if_pos hm]

/-- C8 witness: the traversal guard fires on /../etc/passwd and neither
stat nor fopen runs. -/
theorem C8_dotdot_no_fs_access_witness :
    contains_dotdot ((("/../etc/passwd")).data) = true ∧
    handle_request ⟨(("GET").data), (("/../etc/passwd")).data, none, none, none⟩ ⟨true, 5, true⟩ =
      (HandlerResult.refuse, ⟨false, false, false, false⟩) :=
  ⟨by decide, C8_dotdot_no_fs_access _ _ (by decide)⟩

/-- C9: the Range unit match is exact and case-sensitive on the prefix
"bytes=": a header not starting with that exact text is treated the same as
an absent header, and a GET of a regular file of size S > 0 is then served
with status 200, Content-Length S and no Content-Range. -/
theorem C9_case_sensitive_unit (req : Request) (fs : FsFile) (hdr : List Char)
    (hm : req.method = (("GET").data)) (hd : contains_dotdot req.url = false)
    (hst : fs.statOk = true) (ho : fs.openOk = true)
    (hh : req.rangeHdr = some hdr)
    (hp : List.take 6 hdr ≠ (("bytes=").data))
    (hS : 0 < fs.size) (hS2 : fs.size < 2 ^ 64) :
    parseRange (some hdr) fs.size = parseRange none fs.size ∧
    (handle_request req fs).1.statusOf = 200 ∧
    (handle_request req fs).1.clOf = fs.size ∧
    (handle_request req fs).1.crOf = none := by
  have hfull : parseRange (some hdr) fs.size = fullRange fs.size := by
    rw [parseRange, parseRangeHdr, if_neg hp]
  have hnone : parseRange none fs.size = fullRange fs.size := rfl
  refine ⟨hfull.trans hnone.symm, ?_⟩
  have hrun : handle_request req fs =
      (HandlerResult.respond 200 ((((if fs.size > 0 then fs.size - 1 else 0)) - 0 + 1) % 2 ^ 64)
        none (mime_type req.url)
        (match req.bitrateParam with
          | some s => strtoull s
          | none => 8000000)
        (match req.fpsParam with
          | some s => atoiU s
          | none => 60),
       ⟨true, true, false, true⟩) := by
    rw [handle_request, if_neg (by simp [hm]), if_neg (by simp [hd]),
      if_neg (by simp [hst]), if_neg (by simp [ho]), hh, hfull]
    rfl
  rw [hrun]
  have hcl : (((if fs.size > 0 then fs.size - 1 else 0)) - 0 + 1) % 2 ^ 64 = fs.size := by
    rw [if_pos hS]
    have : fs.size - 1 - 0 + 1 = fs.size := by omega
    rw [this, Nat.mod_eq_of_lt hS2]
  rw [hcl]
  exact ⟨rfl, rfl, rfl⟩

set_option maxRecDepth 4096 in
/-- C9 witness: the header "Bytes=0-5" (capital B) against a 100-byte file
is treated as no range at all: status 200, Content-Length 100. -/
theorem C9_case_sensitive_unit_witness :
    parseRange (some ((("Bytes=0-5")).data)) 100 = parseRange none 100 ∧
    (handle_request ⟨(("GET").data), (("/movie")).data, none, none,
        some ((("Bytes=0-5")).data)⟩ ⟨true, 100, true⟩).1.statusOf = 200 ∧
    (handle_request ⟨(("GET").data), (("/movie")).data, none, none,
        some ((("Bytes=0-5")).data)⟩ ⟨true, 100, true⟩).1.clOf = 100 ∧
    (handle_request ⟨(("GET").data), (("/movie")).data, none, none,
        some ((("Bytes=0-5")).data)⟩ ⟨true, 100, true⟩).1.crOf = none :=
  C9_case_sensitive_unit
    ⟨(("GET").data), (("/movie")).data, none, none, some ((("Bytes=0-5")).data)⟩
    ⟨true, 100, true⟩ ((("Bytes=0-5")).data) rfl (by decide) rfl rfl rfl
    (by decide) (by decide) (by decide)

/-- C10: in the form bytes=(start)-(end), each numeric field is parsed from
its longest leading digit run and trailing non-digit characters are ignored,
so a header like "bytes=0-99xyz" is accepted as the range [0, 99] instead of
being rejected as malformed: for all digit blocks d1, d2 and any junk with
no leading digit, with in-bounds values, the parsed outcome is the accepted
range [val d1, val d2]. -/
theorem C10_trailing_junk_ignored (d1 d2 junk : List Char) (S : Nat)
    (h1 : ∀ c ∈ d1, isDigitC c = true) (h1n : d1 ≠ [])
    (h2 : ∀ c ∈ d2, isDigitC c = true) (h2n : d2 ≠ [])
    (hj : noLeadB junk = true)
    (hv1 : digitsVal d1 < 2 ^ 64) (hv2 : digitsVal d2 < 2 ^ 64)
    (hle : digitsVal d1 ≤ digitsVal d2) (hlt : digitsVal d1 < S) :
    parseRange (some ((("bytes=").data) ++ (d1 ++ '-' :: (d2 ++ junk)))) S =
      RangeOutcome.range (digitsVal d1) (digitsVal d2) true := by
  have h := parseAfterBytes_two_numbers d1 d2 junk S h1 h1n h2 h2n hj hv1 hv2
  rw [parseRange, parseRangeHdr_bytes, h, if_neg (by omega)]

/-- C10 witness: "bytes=0-99xyz" against a 1000-byte file parses as the
accepted range [0, 99]. -/
theorem C10_trailing_junk_ignored_witness :
    parseRange (some ((("bytes=").data) ++
        (((("0")).data) ++ '-' :: (((("99")).data) ++ (("xyz")).data)))) 1000 =
      RangeOutcome.range 0 99 true :=
  C10_trailing_junk_ignored ((("0")).data) ((("99")).data) ((("xyz")).data) 1000
    (by decide) (by decide) (by decide) (by decide) (by decide)
    (by decide) (by decide) (by decide) (by decide)

/-- C3 counterexample: a multi-range header is not treated as absent. The
header "bytes=0-5,10-15" against a 100-byte regular file produces a 206
partial response for the single range [0, 5] with Content-Length 6, not a
200 full-file response with Content-Length 100. -/
theorem C3_multi_range_counterexample :
    (handle_request ⟨(("GET").data), (("/movie")).data, none, none,
        some ((("bytes=0-5,10-15")).data)⟩ ⟨true, 100, true⟩).1 =
      HandlerResult.respond 206 6 (some (0, 5, 100)) (("application/octet-stream")) 8000000 60 := by
  decide

/-- C3 amended: a Range header with multiple comma-separated ranges is not
treated as absent; the handler parses start from the digits before the
first dash and end from the digits directly after it, ignores everything
from the comma on, and serves a 206 partial response for that single range
(when start ≤ end and start < S). -/
theorem C3_multi_range_first_served (req : Request) (fs : FsFile)
    (d1 d2 rest : List Char)
    (hm : req.method = (("GET").data)) (hd : contains_dotdot req.url = false)
    (hst : fs.statOk = true) (ho : fs.openOk = true)
    (hh : req.rangeHdr = some ((("bytes=").data) ++ (d1 ++ '-' :: (d2 ++ ',' :: rest))))
    (h1 : ∀ c ∈ d1, isDigitC c = true) (h1n : d1 ≠ [])
    (h2 : ∀ c ∈ d2, isDigitC c = true) (h2n : d2 ≠ [])
    (hv1 : digitsVal d1 < 2 ^ 64) (hv2 : digitsVal d2 < 2 ^ 64)
    (hle : digitsVal d1 ≤ digitsVal d2) (hlt : digitsVal d1 < fs.size) :
    (handle_request req fs).1.statusOf = 206 ∧
    (handle_request req fs).1.crOf = some (digitsVal d1, digitsVal d2, fs.size) := by
  have hcomma : noLeadB (',' :: rest) = true := by simp [noLeadB, isDigitC]
  have hp : parseRange (some ((("bytes=").data) ++ (d1 ++ '-' :: (d2 ++ ',' :: rest)))) fs.size =
      RangeOutcome.range (digitsVal d1) (digitsVal d2) true := by
    have h := parseAfterBytes_two_numbers d1 d2 (',' :: rest) fs.size h1 h1n h2 h2n hcomma hv1 hv2
    rw [parseRange, parseRangeHdr_bytes, h, if_neg (by omega)]
  have hrun : handle_request req fs =
      (HandlerResult.respond 206 ((digitsVal d2 - digitsVal d1 + 1) % 2 ^ 64)
        (some (digitsVal d1, digitsVal d2, fs.size)) (mime_type req.url)
        (match req.bitrateParam with
          | some s => strtoull s
          | none => 8000000)
        (match req.fpsParam with
          | some s => atoiU s
          | none => 60),
       ⟨true, true, false, true⟩) := by
    rw [handle_request, if_neg (by simp [hm]), if_neg (by simp [hd]),
      if_neg (by simp [hst]), if_neg (by simp [ho]), hh, hp]
    rfl
  rw [hrun]
  exact ⟨rfl, rfl⟩

/-- C3 witness for the amended claim: "bytes=0-5,10-15" on a 100-byte file
is served as a 206 with Content-Range bytes 0-5/100. -/
theorem C3_multi_range_first_served_witness :
    (handle_request ⟨(("GET").data), (("/movie2")).data, none, none,
        some ((("bytes=").data) ++ (((("0")).data) ++ '-' :: (((("5")).data) ++ ',' :: (("10-15")).data)))⟩
      ⟨true, 100, true⟩).1.statusOf = 206 ∧
    (handle_request ⟨(("GET").data), (("/movie2")).data, none, none,
        some ((("bytes=").data) ++ (((("0")).data) ++ '-' :: (((("5")).data) ++ ',' :: (("10-15")).data)))⟩
      ⟨true, 100, true⟩).1.crOf = some (0, 5, 100) :=
  C3_multi_range_first_served
    ⟨(("GET").data), (("/movie2")).data, none, none,
      some ((("bytes=").data) ++ (((("0")).data) ++ '-' :: (((("5")).data) ++ ',' :: (("10-15")).data)))⟩
    ⟨true, 100, true⟩ ((("0")).data) ((("5")).data) (("10-15")).data
    rfl (by decide) rfl rfl rfl
    (by decide) (by decide) (by decide) (by decide)
    (by decide) (by decide) (by decide) (by decide)

/-- C4 counterexample: the MIME choice is not a suffix match. The path
/archive.ts.bak, whose only extension-like suffix is .bak, is classified as
video/mp2t because ".ts" occurs in the middle of the path, where the claim
demands application/octet-stream. -/
theorem C4_mime_not_suffix_counterexample :
    mime_type ((("/archive.ts.bak")).data) = (("video/mp2t")) := by decide

/-- C4 amended: the Content-Type is chosen by a case-sensitive substring
(strstr) match over the whole path, first match winning in the fixed
priority of the chain; in particular any occurrence of ".ts" anywhere in
the path selects video/mp2t provided neither ".mp4" nor ".m3u8" occurs. -/
theorem C4_mime_substring_match (u v : List Char)
    (h1 : containsSub (u ++ ((".ts").data) ++ v) ((".mp4").data) = false)
    (h2 : containsSub (u ++ ((".ts").data) ++ v) ((".m3u8").data) = false) :
    mime_type (u ++ ((".ts").data) ++ v) = (("video/mp2t")) := by
  have hts : containsSub (u ++ ((".ts").data) ++ v) ((".ts").data) = true :=
    containsSub_of_append u ((".ts").data) v
  rw [mime_type, if_neg (by rw [h1]; decide), if_neg (by rw [h2]; decide), if_pos hts]

/-- C4 witness: /archive.ts.bak assembled as "/archive" ++ ".ts" ++ ".bak"
is classified video/mp2t by the substring rule. -/
theorem C4_mime_substring_match_witness :
    mime_type (((("/archive")).data) ++ ((".ts").data) ++ ((".bak")).data) = (("video/mp2t")) :=
  C4_mime_substring_match ((("/archive")).data) (((".bak")).data) (by decide) (by decide)

/-- C7: a syntactically recognized Range whose window is invalid
(start > end, or start at or past the file size) makes the handler refuse
the request: no success status, no body, the file handle opened for the
request is closed (fclose at line 161), and no FileState remains
allocated. The hypothesis parseRange = refuse is exactly the source
condition start > end || start >= file_size of line 160, which is only
reachable for a present header with the bytes= prefix and a dash. -/
theorem C7_invalid_range_refused (req : Request) (fs : FsFile)
    (hm : req.method = (("GET").data)) (hd : contains_dotdot req.url = false)
    (hst : fs.statOk = true) (ho : fs.openOk = true)
    (hr : parseRange req.rangeHdr fs.size = RangeOutcome.refuse) :
    handle_request req fs = (HandlerResult.refuse, ⟨true, true, true, false⟩) := by
  rw [handle_request, if_neg (by simp [hm]), if_neg (by simp [hd]),
    if_neg (by simp [hst]), if_neg (by simp [ho]), hr]

/-- C7 witness: "bytes=5-2" (start 5 > end 2) against a 100-byte file is
refused with the file closed and no state left allocated. -/
theorem C7_invalid_range_refused_witness :
    parseRange (some ((("bytes=5-2")).data)) 100 = RangeOutcome.refuse ∧
    handle_request ⟨(("GET").data), (("/movie")).data, none, none,
        some ((("bytes=5-2")).data)⟩ ⟨true, 100, true⟩ =
      (HandlerResult.refuse, ⟨true, true, true, false⟩) :=
  ⟨by decide,
   C7_invalid_range_refused
     ⟨(("GET").data), (("/movie")).data, none, none, some ((("bytes=5-2")).data)⟩
     ⟨true, 100, true⟩ rfl (by decide) rfl rfl (by decide)⟩

/-- C1: evaluation of the handler at the claim's own example. Against a
1,000,000-byte file, the suffix request "bytes=-500" is refused outright
(MHD_NO) instead of producing the 206 response with Content-Range
bytes 999500-999999/1000000 that the claim states: line 156 re-parses the
digits after the dash as end, so start = 999500 and end = 500, and the
start > end check of line 160 rejects the request. -/
theorem C1_suffix_range_code_behaviour :
    parseRange (some ((("bytes=-500")).data)) 1000000 = RangeOutcome.refuse ∧
    handle_request ⟨(("GET").data), (("/clip.mp4")).data, none, none,
        some ((("bytes=-500")).data)⟩ ⟨true, 1000000, true⟩ =
      (HandlerResult.refuse, ⟨true, true, true, false⟩) := by
  constructor
  · decide
  · decide

/-- C2: evaluation of the handler at the claim's input. A GET of an empty
regular file (S = 0) with no Range header yields status 200 but
content_length = end - start + 1 = 1 (line 168 with start = 0 and
end = 0), not the Content-Length 0 the claim states; the body reader
produces 0 bytes (immediate end-of-stream), so the declared length and the
body disagree. -/
theorem C2_empty_file_code_behaviour :
    (handle_request ⟨(("GET").data), (("/empty.bin")).data, none, none, none⟩
        ⟨true, 0, true⟩).1 =
      HandlerResult.respond 200 1 none (("application/octet-stream")) 8000000 60 ∧
    file_reader 0 0 0 65536 = ReadResult.END := by
  constructor
  · decide
  · decide

/-- C5 counterexample: malformed bitrate/fps query parameters do not fall
back to the defaults 8,000,000 and 60. With bitrate=abc and fps=xyz the
handler stores bitrate 0 and fps 0 (strtoull and atoi return 0 on a string
with no digits; the defaults apply only when the parameter is absent). -/
theorem C5_malformed_params_counterexample :
    (handle_request ⟨(("GET").data), (("/movie")).data, some ((("abc")).data),
        some ((("xyz")).data), none⟩ ⟨true, 100, true⟩).1 =
      HandlerResult.respond 200 100 none (("application/octet-stream")) 0 0 := by
  decide

/-- C5 amended: when the bitrate or fps query parameter is present but
contains no digit, the stored value is 0 (the strtoull/atoi result), not
the defaults 8,000,000 and 60, which apply only to absent parameters; and
in the meter's emission computation a zero fps yields an estimate of 0
through the bytes_per_frame > 0 guard, never a division error. -/
theorem C5_malformed_params_zero :
    (∀ (req : Request) (fs : FsFile) (sb sf : List Char),
      req.method = (("GET").data) → contains_dotdot req.url = false →
      fs.statOk = true → fs.openOk = true →
      req.bitrateParam = some sb → req.fpsParam = some sf →
      (∀ c ∈ sb, isDigitC c = false) → (∀ c ∈ sf, isDigitC c = false) →
      parseRange req.rangeHdr fs.size ≠ RangeOutcome.refuse →
      (handle_request req fs).1.bitrateOf = 0 ∧ (handle_request req fs).1.fpsOf = 0) ∧
    (∀ b elapsed bitrate : ℚ, frames_per_sec b elapsed bitrate 0 = 0) := by
  constructor
  · intro req fs sb sf hm hd hst ho hb hf hnb hnf hpr
    cases hout : parseRange req.rangeHdr fs.size with
    | refuse => exact absurd hout hpr
    | range s e p =>
      have hrun : handle_request req fs =
          (HandlerResult.respond (if p = true then 206 else 200) ((e - s + 1) % 2 ^ 64)
            (if p = true then some (s, e, fs.size) else none)
            (mime_type req.url) (strtoull sb) (atoiU sf),
           ⟨true, true, false, true⟩) := by
        rw [handle_request, if_neg (by simp [hm]), if_neg (by simp [hd]),
          if_neg (by simp [hst]), if_neg (by simp [ho]), hb, hf, hout]
      rw [hrun]
      exact ⟨strtoull_nondigits sb hnb, atoiU_nondigits sf hnf⟩
  · intro b elapsed bitrate
    have h0 : bytes_per_frame bitrate 0 = 0 := by
      rw [bytes_per_frame, div_zero, zero_div]
    rw [frames_per_sec, h0, if_neg (lt_irrefl 0)]

/-- C5 witness: bitrate=nope and fps=nah on a 50-byte file store bitrate 0
and fps 0, and a zero fps gives a frames-per-second estimate of 0. -/
theorem C5_malformed_params_zero_witness :
    (handle_request ⟨(("GET").data), (("/vid")).data, some ((("nope")).data),
        some ((("nah")).data), none⟩ ⟨true, 50, true⟩).1.bitrateOf = 0 ∧
    (handle_request ⟨(("GET").data), (("/vid")).data, some ((("nope")).data),
        some ((("nah")).data), none⟩ ⟨true, 50, true⟩).1.fpsOf = 0 ∧
    frames_per_sec 2 1 8000000 0 = 0 :=
  ⟨(C5_malformed_params_zero.1
      ⟨(("GET").data), (("/vid")).data, some ((("nope")).data), some ((("nah")).data), none⟩
      ⟨true, 50, true⟩ ((("nope")).data) ((("nah")).data)
      rfl (by decide) rfl rfl rfl rfl (by decide) (by decide) (by decide)).1,
   (C5_malformed_params_zero.1
      ⟨(("GET").data), (("/vid")).data, some ((("nope")).data), some ((("nah")).data), none⟩
      ⟨true, 50, true⟩ ((("nope")).data) ((("nah")).data)
      rfl (by decide) rfl rfl rfl rfl (by decide) (by decide) (by decide)).2,
   C5_malformed_params_zero.2 2 1 8000000⟩

/-- C6 counterexample: the reader has no window-length check. A request
for "bytes=0-5" on a 100-byte file creates a window of length 6 at
offset_base 0, yet file_reader at pos = 10 ≥ 6 with max = 4 returns 4 file
bytes instead of END, because the underlying file still has bytes at
absolute offset 10. -/
theorem C6_reader_past_window_counterexample :
    (handle_request ⟨(("GET").data), (("/movie")).data, none, none,
        some ((("bytes=0-5")).data)⟩ ⟨true, 100, true⟩).1 =
      HandlerResult.respond 206 6 (some (0, 5, 100)) (("application/octet-stream")) 8000000 60 ∧
    file_reader 0 100 10 4 = ReadResult.bytes 4 := by
  constructor
  · decide
  · decide

/-- C6 amended: file_reader returns END exactly when max = 0 or the
absolute offset offset_base + pos is at or past the end of the file; the
window length plays no part, so pulls beyond the window still return file
bytes as long as the file itself has them (the transport's content-length
bound is what confines pulls to the window). -/
theorem C6_reader_end_iff (offset_base fileSize pos maxb : Nat) :
    file_reader offset_base fileSize pos maxb = ReadResult.END ↔
      (maxb = 0 ∨ fileSize ≤ offset_base + pos) := by
  simp only [file_reader]
  by_cases h : min maxb (fileSize - (offset_base + pos)) = 0
  · rw [if_pos h]
    simp only [true_iff]
    omega
  · rw [if_neg h]
    constructor
    · intro hc
      exact absurd hc (by simp)
    · intro hc
      omega
